import Mathlib

/-!
Shallow embedding of the BabyEthan kick-counter application (`src/app.py`).

Conventions of the embedding:
* UTC instants are natural numbers of seconds since an epoch.
* Calendar dates are natural numbers of days since the same epoch
  (the role `date.toordinal()` plays in the source).
* `pytz.timezone("Asia/Kuala_Lumpur")` is a fixed UTC+8 offset with no
  daylight saving in the application's era, so converting a UTC instant
  to Malaysia local wall time is adding `8 * 3600` seconds.
* The SQLite tables become Lean lists kept in rowid (insertion) order;
  the database file becomes a `DB` record; every function of the source
  that opens a connection, runs statements and commits becomes one
  function `DB → DB` — one committed transaction per source function.
* The current wall clock (`datetime.now(MALAYSIA_TZ)` / `datetime.utcnow()`)
  becomes an explicit `now : Nat` argument (the UTC instant of the call).
-/

namespace BabyEthan

/-- `MALAYSIA_TZ`: the fixed UTC+8 offset, in seconds (Asia/Kuala_Lumpur). -/
def malaysiaOffset : Nat := 8 * 3600

/-- Malaysia local wall-clock seconds of a UTC instant. -/
def localSecs (t : Nat) : Nat := t + malaysiaOffset

/-- `.dt.tz_convert(MALAYSIA_TZ)` followed by `.date()`: the local calendar
date (as ordinal day number) an event at UTC instant `t` falls on.
This is the analytics page's `df["date"]` column (src/app.py lines 276-286). -/
def localDate (t : Nat) : Nat := localSecs t / 86400

/-- The UTC calendar date (ordinal day number) of a UTC instant. -/
def utcDate (t : Nat) : Nat := t / 86400

/-- `.dt.hour` in Malaysia local time. -/
def localHour (t : Nat) : Nat := localSecs t / 3600 % 24

/-- `.dt.minute` in Malaysia local time. -/
def localMinute (t : Nat) : Nat := localSecs t / 60 % 60

/-- `df["hour"] = df["kick_time"].dt.hour + df["kick_time"].dt.minute/60`
(src/app.py line 327): the local hour fraction of an event.  The source
computes this in floating point; for hours 0-23 and the thresholds 9 and 19
the float comparisons agree exactly with the rational ones, so the
embedding uses `ℚ`. -/
def hourFrac (t : Nat) : ℚ := (localHour t : ℚ) + (localMinute t : ℚ) / 60

/-- The application's SQLite database (src/app.py `init_db`):
`kicks(kick_date PRIMARY KEY, count)`, `kick_events(id AUTOINCREMENT, kick_time)`,
`login(id, last_login_date)` with the singleton row id 1.
`kicks` is an association list keyed by local ordinal date; `events` is kept
in rowid (insertion) order with its AUTOINCREMENT counter `nextId`;
`login` is the `last_login_date` of row 1, if that row exists. -/
structure DB where
  kicks : List (Nat × Nat)
  events : List (Nat × Nat)
  nextId : Nat
  login : Option Nat

/-- A freshly created database: `init_db` makes the three empty tables. -/
def emptyDB : DB := ⟨[], [], 1, none⟩

/-- `INSERT ... ON CONFLICT(kick_date) DO UPDATE SET count=excluded.count`
on the association list holding the `kicks` table. -/
def upsert (k v : Nat) : List (Nat × Nat) → List (Nat × Nat)
  | [] => [(k, v)]
  | (k', v') :: rest => if k' = k then (k, v) :: rest else (k', v') :: upsert k v rest

/-- `SELECT count FROM kicks WHERE kick_date=?`. -/
def lookupKicks (k : Nat) : List (Nat × Nat) → Option Nat
  | [] => none
  | (k', v') :: rest => if k' = k then some v' else lookupKicks k rest

/-- `get_last_login_date` (src/app.py lines 53-59): the singleton login row's
date, or `none` when the row is absent. -/
def get_last_login_date (db : DB) : Option Nat := db.login

/-- `save_login_date` (src/app.py lines 61-71): upsert of the singleton row. -/
def save_login_date (d : Nat) (db : DB) : DB := { db with login := some d }

/-- `get_today_kicks` (src/app.py lines 73-80): today's count, or 0 when the
row is absent (`row[0] if row else 0`). -/
def get_today_kicks (today : Nat) (db : DB) : Nat :=
  (lookupKicks today db.kicks).getD 0

/-- `save_kick(count)` (src/app.py lines 82-93): one transaction upserting
today's `kicks` row to `count`. -/
def save_kick (today count : Nat) (db : DB) : DB :=
  { db with kicks := upsert today count db.kicks }

/-- `log_kick_event` (src/app.py lines 95-101): one transaction inserting a
`kick_events` row holding the current UTC instant. -/
def log_kick_event (now : Nat) (db : DB) : DB :=
  { db with events := db.events ++ [(db.nextId, now)], nextId := db.nextId + 1 }

/-- The ADD KICK handler (src/app.py lines 249-255): reads today's count,
then runs `save_kick(count + 1)` and `log_kick_event()` — two separate
transactions, each with its own connection and commit. -/
def addKick (today now : Nat) (db : DB) : DB :=
  log_kick_event now (save_kick today (get_today_kicks today db + 1) db)

/-- The committed database states an execution of the ADD KICK handler
passes through: before the handler, after `save_kick`'s commit, and after
`log_kick_event`'s commit. -/
def addKickCommits (today now : Nat) (db : DB) : List DB :=
  [db,
   save_kick today (get_today_kicks today db + 1) db,
   addKick today now db]

/-- `reset_today` (src/app.py lines 103-114).  Deletes today's `kicks` row,
then deletes the `kick_events` rows between `today_start_utc` and
`today_end_utc`.  The source builds those bounds with
`datetime.combine(local_date, time.min or time.max).astimezone(UTC)`:
`datetime.combine` yields a **naive** datetime, and `.astimezone(UTC)` on a
naive datetime interprets it in the **server's** timezone, not in
`MALAYSIA_TZ`; the embedding makes that environment dependence explicit as
`serverOff`, the server timezone's UTC offset in seconds.  The deletion
range is therefore `[D*86400 - serverOff, D*86400 + 86399 - serverOff]`
(`time.max` is 23:59:59.999999, which at whole-second resolution is
`D*86400 + 86399`), where `D` is today's Malaysia ordinal date. -/
def reset_today (now : Nat) (serverOff : Int) (db : DB) : DB :=
  { db with
    kicks := db.kicks.filter (fun p => !(p.1 == localDate now)),
    events := db.events.filter (fun p =>
      !(decide ((localDate now : Int) * 86400 - serverOff ≤ (p.2 : Int)) &&
        decide ((p.2 : Int) ≤ (localDate now : Int) * 86400 + 86399 - serverOff))) }

/-- `SELECT kick_time FROM kick_events` (src/app.py line 267).  The query has
no ORDER BY; SQLite scans this table in rowid order, which is insertion
order, so the full history comes back as stored. -/
def list_events (db : DB) : List (Nat × Nat) := db.events

/-- The session initialisation (src/app.py lines 204-206):
`logged_in = (last_login == str(datetime.now(MALAYSIA_TZ).date()))`, where a
missing login row gives `None`, which compares unequal to any date string. -/
def is_authorized_today (today : Nat) (db : DB) : Bool :=
  match get_last_login_date db with
  | none => false
  | some d => d == today

/-- The band filter of the Kick Distribution plot (src/app.py line 328):
`hist = df[(df["hour"]>=9)&(df["hour"]<=19)]`. -/
def hist (evs : List Nat) : List Nat :=
  evs.filter (fun t => decide (9 ≤ hourFrac t) && decide (hourFrac t ≤ 19))

/-- `today_hist = hist[hist["date"]==today]` (src/app.py line 329):
the band-restricted events whose local date is today. -/
def today_hist (today : Nat) (evs : List Nat) : List Nat :=
  (hist evs).filter (fun t => localDate t == today)

/-- The lookback cutoff test (src/app.py lines 304-305):
`cutoff = today.toordinal() - days` and the filter `d.toordinal() >= cutoff`.
Ordinal arithmetic is over `Int` as Python's is unbounded. -/
def windowB (today days d : Nat) : Bool :=
  decide ((today : Int) - (days : Int) ≤ (d : Int))

/-- `recent = df[df["date"].apply(lambda d: d.toordinal() >= cutoff)]`. -/
def recentEvents (today days : Nat) (evs : List Nat) : List Nat :=
  evs.filter (fun t => windowB today days (localDate t))

/-- The distinct local dates `recent.groupby("date")` iterates over. -/
def groupDates (evs : List Nat) : List Nat := (evs.map localDate).dedup

/-- `times = group["kick_time"].sort_values()` (ascending sort). -/
def sortTimes (ts : List Nat) : List Nat := List.insertionSort (· ≤ ·) ts

/-- `times.diff().dropna()`: successive differences of the sorted series,
in seconds. -/
def successiveDiffs : List Nat → List Int
  | a :: b :: rest => ((b : Int) - (a : Int)) :: successiveDiffs (b :: rest)
  | _ => []

/-- `intervals = times.diff().dropna().dt.total_seconds()/3600` followed by
`intervals.mean()` (src/app.py lines 310-312): the mean, in hours, of the
successive differences of the ascending-sorted timestamps. -/
def avg_interval (ts : List Nat) : ℚ :=
  ((successiveDiffs (sortTimes ts)).map (fun x => (x : ℚ) / 3600)).sum /
    ((successiveDiffs (sortTimes ts)).length : ℚ)

/-- The Average Interval computation (src/app.py lines 303-313): group the
window-restricted events by local date, skip groups of fewer than two
events, and report each remaining date with its mean interval in hours. -/
def average_intervals (today days : Nat) (evs : List Nat) : List (Nat × ℚ) :=
  (groupDates (recentEvents today days evs)).filterMap (fun d =>
    if ((recentEvents today days evs).filter (fun t => localDate t == d)).length < 2
    then none
    else some (d, avg_interval
      ((recentEvents today days evs).filter (fun t => localDate t == d))))

/-- A press on the PIN keypad (src/app.py line 216): a digit key, the
backspace key or the submit key. -/
inductive Key where
  | digit (c : Char)
  | back
  | submit

/-- One keypad interaction on the accumulated `pin_input` string
(src/app.py lines 220-235): backspace drops the last character; submit
clears the input (both on a match, before the rerun, and on a mismatch);
a digit is appended only while the length is below 4. -/
def pinStep (s : List Char) : Key → List Char
  | .digit c => if s.length < 4 then s ++ [c] else s
  | .back => s.dropLast
  | .submit => []

/-- The accumulated `pin_input` after a sequence of keypad interactions,
starting from the empty string the session initialises it to. -/
def pinAfter (keys : List Key) : List Char := keys.foldl pinStep []

end BabyEthan

namespace BabyEthan

/-! ### Helper lemmas -/

theorem lookupKicks_upsert (k v : Nat) (l : List (Nat × Nat)) :
    lookupKicks k (upsert k v l) = some v := by
  induction l with
  | nil => simp [upsert, lookupKicks]
  | cons p rest ih =>
    obtain ⟨k', v'⟩ := p
    by_cases h : k' = k
    · simp [upsert, lookupKicks, h]
    · simp [upsert, lookupKicks, h, ih]

theorem get_today_kicks_addKick (today now : Nat) (db : DB) :
    get_today_kicks today (addKick today now db) = get_today_kicks today db + 1 := by
  simp [addKick, log_kick_event, save_kick, get_today_kicks, lookupKicks_upsert]

theorem get_today_kicks_foldl (today : Nat) (ts : List Nat) (db : DB) :
    get_today_kicks today (ts.foldl (fun s t => addKick today t s) db) =
      get_today_kicks today db + ts.length := by
  induction ts generalizing db with
  | nil => simp
  | cons t rest ih =>
    simp only [List.foldl_cons, ih, get_today_kicks_addKick, List.length_cons]
    omega

theorem events_snd_foldl (today : Nat) (ts : List Nat) (db : DB) :
    ((ts.foldl (fun s t => addKick today t s) db).events).map Prod.snd =
      db.events.map Prod.snd ++ ts := by
  induction ts generalizing db with
  | nil => simp
  | cons t rest ih =>
    rw [List.foldl_cons, ih]
    simp [addKick, log_kick_event, save_kick]

theorem mem_hist (evs : List Nat) (t : Nat) :
    t ∈ hist evs ↔ t ∈ evs ∧ 9 ≤ hourFrac t ∧ hourFrac t ≤ 19 := by
  simp [hist, List.mem_filter, and_assoc]

theorem recent_filter_date (today days d : Nat) (evs : List Nat)
    (h : windowB today days d = true) :
    (recentEvents today days evs).filter (fun t => localDate t == d) =
      evs.filter (fun t => localDate t == d) := by
  unfold recentEvents
  rw [List.filter_filter]
  apply List.filter_congr
  intro t _
  by_cases hd : localDate t = d
  · simp [hd, h]
  · simp [hd]

theorem mem_groupDates (l : List Nat) (d : Nat) :
    d ∈ groupDates l ↔ ∃ t ∈ l, localDate t = d := by
  simp [groupDates, List.mem_dedup, List.mem_map]

theorem average_intervals_mem (today days : Nat) (evs : List Nat) (d : Nat) (v : ℚ) :
    (d, v) ∈ average_intervals today days evs ↔
      ((today : Int) - (days : Int) ≤ (d : Int) ∧
       2 ≤ (evs.filter (fun t => localDate t == d)).length ∧
       v = avg_interval (evs.filter (fun t => localDate t == d))) := by
  unfold average_intervals
  rw [List.mem_filterMap]
  constructor
  · rintro ⟨d', hd', hf⟩
    by_cases hlen :
        ((recentEvents today days evs).filter (fun t => localDate t == d')).length < 2
    · rw [if_pos hlen] at hf
      exact absurd hf (by simp)
    · rw [if_neg hlen, Option.some_inj, Prod.mk.injEq] at hf
      obtain ⟨rfl, hvv⟩ := hf
      obtain ⟨t, ht, htd⟩ := (mem_groupDates _ _).mp hd'
      simp only [recentEvents, List.mem_filter] at ht
      have hw : windowB today days d' = true := by
        have h2 := ht.2
        rwa [htd] at h2
      rw [recent_filter_date today days d' evs hw] at hlen hvv
      simp only [windowB, decide_eq_true_eq] at hw
      exact ⟨hw, by omega, hvv.symm⟩
  · rintro ⟨hwin, hlen, hv⟩
    have hw : windowB today days d = true := by
      simp only [windowB, decide_eq_true_eq]
      omega
    have hne : evs.filter (fun t => localDate t == d) ≠ [] := by
      intro h0
      rw [h0] at hlen
      simp at hlen
    obtain ⟨t, ht⟩ := List.exists_mem_of_ne_nil _ hne
    have ht' := List.mem_filter.mp ht
    have htd : localDate t = d := by simpa using ht'.2
    refine ⟨d, ?_, ?_⟩
    · refine (mem_groupDates _ _).mpr ⟨t, ?_, htd⟩
      simp only [recentEvents, List.mem_filter]
      exact ⟨ht'.1, by rw [htd]; exact hw⟩
    · rw [recent_filter_date today days d evs hw, if_neg (by omega), hv]

theorem pinStep_length (s : List Char) (k : Key) (h : s.length ≤ 4) :
    (pinStep s k).length ≤ 4 := by
  cases k with
  | digit c =>
    by_cases hl : s.length < 4
    · simp only [pinStep, hl, if_pos, List.length_append, List.length_cons,
        List.length_nil]
      omega
    · simpa [pinStep, hl] using h
  | back =>
    simp only [pinStep, List.length_dropLast]
    omega
  | submit => simp [pinStep]

theorem pin_foldl_length (keys : List Key) (s : List Char) (h : s.length ≤ 4) :
    (keys.foldl pinStep s).length ≤ 4 := by
  induction keys generalizing s with
  | nil => simpa using h
  | cons k rest ih => exact ih (pinStep s k) (pinStep_length s k h)

/-! ### The claims -/

/-- Claim C1, as stated, is false of the code: the ADD KICK handler runs
`save_kick` and `log_kick_event` as two separate transactions (each opens
its own connection and commits), so the committed state after `save_kick`
has the incremented count but no new event row.  Concretely, on an empty
database the second element of `addKickCommits` violates the
count-written-iff-event-written property. -/
theorem addKick_single_transaction_cex :
    ¬ (∀ s ∈ addKickCommits 0 5 emptyDB,
        (get_today_kicks 0 s = get_today_kicks 0 emptyDB + 1 ↔
         s.events.length = emptyDB.events.length + 1)) := by
  decide

/-- Claim C1 (amended): the record-event operation applies its two writes in
two separate transactions, `save_kick` committing before `log_kick_event`
starts.  The completed operation has both writes (today's count incremented
by one and the event row appended with the current UTC instant), but the
intermediate committed state after `save_kick` has the count written while
the event table is unchanged. -/
theorem addKick_two_transactions (today now : Nat) (db : DB) :
    get_today_kicks today (addKick today now db) = get_today_kicks today db + 1 ∧
    (addKick today now db).events.map Prod.snd = db.events.map Prod.snd ++ [now] ∧
    get_today_kicks today (save_kick today (get_today_kicks today db + 1) db) =
      get_today_kicks today db + 1 ∧
    (save_kick today (get_today_kicks today db + 1) db).events = db.events := by
  refine ⟨get_today_kicks_addKick today now db, ?_, ?_, rfl⟩
  · simp [addKick, log_kick_event, save_kick]
  · simp [save_kick, get_today_kicks, lookupKicks_upsert]

/-- Claim C2: `reset_today` converts the local day boundaries to UTC with
`.astimezone(UTC)` on a naive datetime, which uses the server's timezone
instead of the fixed UTC+8 offset.  On a server running at UTC
(`serverOff = 0`), a kick logged at Malaysia local 01:00 of day 1
(UTC instant 61200) survives `reset_today` run later the same local day
(at UTC instant 86400), even though its local date equals today — while
`get_today_kicks` does return 0.  With `serverOff = 28800` (a server at
UTC+8) the same event is deleted, which is the behaviour the claim
describes. -/
theorem reset_today_leaves_today_event :
    get_today_kicks (localDate 86400)
        (reset_today 86400 0 ⟨[(1, 1)], [(1, 61200)], 2, none⟩) = 0 ∧
    (reset_today 86400 0 ⟨[(1, 1)], [(1, 61200)], 2, none⟩).events = [(1, 61200)] ∧
    localDate 61200 = localDate 86400 ∧
    (reset_today 86400 28800 ⟨[(1, 1)], [(1, 61200)], 2, none⟩).events = [] := by
  decide

/-- Claim C3: starting from a state with no `kicks` row for today, N runs of
the ADD KICK handler on the same local day leave `get_today_kicks` = N. -/
theorem count_after_n_records (today : Nat) (ts : List Nat) (db : DB)
    (h : lookupKicks today db.kicks = none) :
    get_today_kicks today (ts.foldl (fun s t => addKick today t s) db) = ts.length := by
  rw [get_today_kicks_foldl]
  simp [get_today_kicks, h]

/-- Witness for claim C3: three ADD KICK runs on an empty database give
count 3. -/
theorem count_after_n_records_w :
    get_today_kicks 0 ([10, 20, 30].foldl (fun s t => addKick 0 t s) emptyDB) = 3 :=
  count_after_n_records 0 [10, 20, 30] emptyDB (by decide)

/-- Claim C4: an event at UTC instant `t` is bucketed into the local
calendar date of `t + 8` hours, and the instants 15:59 and 16:01 UTC of UTC
day 1 (143940 and 144060) share a UTC date but fall on different local
dates. -/
theorem event_bucketed_utc_plus8 :
    (∀ t : Nat, localDate t = utcDate (t + 8 * 3600)) ∧
    utcDate 143940 = utcDate 144060 ∧
    localDate 143940 ≠ localDate 144060 := by
  refine ⟨fun t => rfl, by decide, by decide⟩

/-- Claim C5: `(d, v)` is reported by the Average Interval computation
exactly when `d`'s ordinal difference from today is at most the lookback,
at least two events fall on local date `d`, and `v` is the mean of the
successive differences, in hours, of `d`'s ascending-sorted timestamps.
Concretely, a day with events at local 09:00, 11:00, 15:00 (UTC instants
262800, 270000, 284400 on day 3) reports the value 3 hours, and a day with
a single event yields no entry at all. -/
theorem average_intervals_spec (today days : Nat) (evs : List Nat) (d : Nat) (v : ℚ) :
    ((d, v) ∈ average_intervals today days evs ↔
      ((today : Int) - (days : Int) ≤ (d : Int) ∧
       2 ≤ (evs.filter (fun t => localDate t == d)).length ∧
       v = avg_interval (evs.filter (fun t => localDate t == d)))) ∧
    (3, 3) ∈ average_intervals 3 10 [262800, 270000, 284400] ∧
    average_intervals 3 10 [262800] = [] := by
  refine ⟨average_intervals_mem today days evs d v, ?_, by decide⟩
  refine (average_intervals_mem 3 10 _ 3 3).mpr ⟨by decide, by decide, ?_⟩
  have hf : ([262800, 270000, 284400] : List Nat).filter (fun t => localDate t == 3) =
      [262800, 270000, 284400] := by decide
  have hd : successiveDiffs (sortTimes [262800, 270000, 284400]) = [7200, 14400] := by
    decide
  rw [hf]
  simp only [avg_interval, hd]
  norm_num

/-- Claim C6, as stated, is false of the code: the Kick Distribution plot's
"Historical" series is the whole band-restricted set `hist`, today's events
included, so the two plotted series overlap instead of partitioning.  The
event at UTC instant 93600 (local 10:00 of local day 1) lies in both series
when today is day 1. -/
theorem histogram_partition_cex :
    ¬ List.Disjoint (hist [93600]) (today_hist 1 [93600]) ∧ localDate 93600 = 1 := by
  have h1 : hist [93600] = [93600] := by
    norm_num [hist, hourFrac, localHour, localMinute, localSecs, malaysiaOffset]
  have h2 : today_hist 1 [93600] = [93600] := by
    rw [today_hist, h1]
    decide
  constructor
  · intro hd
    exact hd (by rw [h1]; exact List.mem_singleton_self 93600)
      (by rw [h2]; exact List.mem_singleton_self 93600)
  · decide

/-- Claim C6 (amended): the "today" series contains exactly the
band-restricted events whose local date is today, while the series plotted
as "Historical" is the entire band-restricted set — it contains every
band event regardless of date, so the today series is a subset of it
rather than its complement. -/
theorem histogram_series_overlap (today : Nat) (evs : List Nat) :
    (∀ t, t ∈ today_hist today evs ↔ t ∈ hist evs ∧ localDate t = today) ∧
    today_hist today evs ⊆ hist evs := by
  constructor
  · intro t
    simp [today_hist, List.mem_filter]
  · intro a ha
    simp only [today_hist, List.mem_filter] at ha
    exact ha.1

/-- Claim C7: the Kick Distribution filter keeps an event exactly when its
local hour fraction lies in the closed band [9, 19]; the event at UTC
instant 125940 (local 18:59) is kept and the one at 131400 (local 20:30)
is dropped. -/
theorem histogram_band_spec :
    (∀ (evs : List Nat) (t : Nat),
      t ∈ hist evs ↔ t ∈ evs ∧ 9 ≤ hourFrac t ∧ hourFrac t ≤ 19) ∧
    125940 ∈ hist [125940] ∧ 131400 ∉ hist [131400] ∧
    localHour 125940 = 18 ∧ localMinute 125940 = 59 ∧
    localHour 131400 = 20 ∧ localMinute 131400 = 30 := by
  refine ⟨mem_hist, ?_, ?_, by decide, by decide, by decide, by decide⟩
  · have h1 : hist [125940] = [125940] := by
      norm_num [hist, hourFrac, localHour, localMinute, localSecs, malaysiaOffset]
    rw [h1]
    exact List.mem_singleton_self 125940
  · have h2 : hist [131400] = [] := by
      norm_num [hist, hourFrac, localHour, localMinute, localSecs, malaysiaOffset]
    rw [h2]
    simp

/-- Claim C8: recording a sequence of events (with a monotone clock, so the
successive UTC instants are non-decreasing) and then reading them back with
the `kick_events` query returns the full history — one row per record, in
non-decreasing timestamp order. -/
theorem list_events_roundtrip (today : Nat) (ts : List Nat)
    (h : List.Sorted (· ≤ ·) ts) :
    (list_events (ts.foldl (fun s t => addKick today t s) emptyDB)).length = ts.length ∧
    (list_events (ts.foldl (fun s t => addKick today t s) emptyDB)).map Prod.snd = ts ∧
    List.Sorted (· ≤ ·)
      ((list_events (ts.foldl (fun s t => addKick today t s) emptyDB)).map Prod.snd) := by
  have he : (list_events (ts.foldl (fun s t => addKick today t s) emptyDB)).map
      Prod.snd = ts := by
    simpa [list_events, emptyDB] using events_snd_foldl today ts emptyDB
  refine ⟨?_, he, ?_⟩
  · simpa using congrArg List.length he
  · rw [he]
    exact h

/-- Witness for claim C8: recording at instants 100, 200, 200 returns the
three rows back in non-decreasing timestamp order. -/
theorem list_events_roundtrip_w :
    (list_events ([100, 200, 200].foldl (fun s t => addKick 7 t s) emptyDB)).length = 3 ∧
    (list_events ([100, 200, 200].foldl (fun s t => addKick 7 t s) emptyDB)).map
      Prod.snd = [100, 200, 200] ∧
    List.Sorted (· ≤ ·)
      ((list_events ([100, 200, 200].foldl (fun s t => addKick 7 t s) emptyDB)).map
        Prod.snd) :=
  list_events_roundtrip 7 [100, 200, 200] (by decide)

/-- Claim C9: the daily authorization flag is true exactly when the stored
last-login date equals today's local date, and a database whose login row
is absent always yields false. -/
theorem authorized_iff_last_login_today :
    (∀ (today : Nat) (db : DB),
      is_authorized_today today db = true ↔ get_last_login_date db = some today) ∧
    (∀ (today n : Nat) (ks es : List (Nat × Nat)),
      is_authorized_today today ⟨ks, es, n, none⟩ = false) := by
  constructor
  · intro today db
    cases hdb : db.login with
    | none => simp [is_authorized_today, get_last_login_date, hdb]
    | some d => simp [is_authorized_today, get_last_login_date, hdb]
  · intro today n ks es
    rfl

/-- Claim C10: over every sequence of keypad interactions the accumulated
PIN input stays at most 4 characters long, so a configured secret longer
than 4 characters can never equal the input. -/
theorem pin_input_bounded (keys : List Key) (secret : List Char) :
    (pinAfter keys).length ≤ 4 ∧ (4 < secret.length → pinAfter keys ≠ secret) := by
  have hlen : (pinAfter keys).length ≤ 4 := pin_foldl_length keys [] (by simp)
  refine ⟨hlen, fun hs heq => ?_⟩
  rw [heq] at hlen
  omega

/-- Witness for claim C10: pressing the five digits 1-5 leaves at most four
characters accumulated, and the input does not equal the 5-character secret
"12345". -/
theorem pin_input_bounded_w :
    (pinAfter [Key.digit '1', Key.digit '2', Key.digit '3', Key.digit '4',
      Key.digit '5']).length ≤ 4 ∧
    pinAfter [Key.digit '1', Key.digit '2', Key.digit '3', Key.digit '4',
      Key.digit '5'] ≠ ['1', '2', '3', '4', '5'] :=
  ⟨(pin_input_bounded [Key.digit '1', Key.digit '2', Key.digit '3', Key.digit '4',
      Key.digit '5'] ['1', '2', '3', '4', '5']).1,
   (pin_input_bounded [Key.digit '1', Key.digit '2', Key.digit '3', Key.digit '4',
      Key.digit '5'] ['1', '2', '3', '4', '5']).2 (by decide)⟩

end BabyEthan
